import Mathlib

/-!
Shallow embedding of the Mr. Teals paper-trading backend (src/app/main.py).

Monetary amounts, prices and quantities are modelled as rationals (the
Python source uses floats; the spec calls them decimal amounts).  Python
dicts are modelled as association lists with Python's insertion-order
update semantics (`dget`/`dset`).  The external quote source (the
CoinGecko HTTP API queried by `fetch_live_prices`) is modelled by passing
the decoded response body — a mapping coingecko-id to USD price — as an
explicit parameter `api`; a network or parse failure corresponds to the
empty mapping, which makes `fetch_live_prices` return the empty result
exactly as the `except` branch does.  Timestamps produced by
`datetime.datetime.utcnow().isoformat()` are passed in as an explicit
`now : String` parameter.
-/

namespace MrTeals

/-- Python `str.upper()` (ASCII, which is all the source uses): upper-case
every character.  Stated directly on the character list so that it
evaluates by definitional reduction. -/
def pyUpper (s : String) : String := ⟨s.data.map Char.toUpper⟩

/-- Python `d.get(k)` on an association list (first binding wins,
matching dict key uniqueness). -/
def dget {α : Type} (d : List (String × α)) (k : String) : Option α :=
  match d with
  | [] => none
  | (k', v) :: t => if k' = k then some v else dget t k

/-- Python `d[k] = v`: update the existing binding in place, else append. -/
def dset {α : Type} (d : List (String × α)) (k : String) (v : α) : List (String × α) :=
  match d with
  | [] => [(k, v)]
  | (k', v') :: t => if k' = k then (k', v) :: t else (k', v') :: dset t k v

/-- Python `l.remove(x)` wrapped in `try/except ValueError: pass`:
remove the first occurrence, no-op when absent. -/
def listRemove {α : Type} [DecidableEq α] (l : List α) (x : α) : List α :=
  match l with
  | [] => []
  | y :: t => if y = x then t else y :: listRemove t x

/-- The `account_snapshot` dict: equity, cash, positions_value, unrealized_pnl. -/
structure AccountSnapshot where
  equity : ℚ
  cash : ℚ
  positions_value : ℚ
  unrealized_pnl : ℚ
  deriving DecidableEq

/-- The `performance_today` dict. -/
structure Performance where
  realized_pnl : ℚ
  unrealized_pnl : ℚ
  trades_count : Nat
  deriving DecidableEq

/-- The `last_trade` dict, whose fields all start out as `None`. -/
structure LastTrade where
  symbol : Option String
  side : Option String
  quantity : Option String
  price : Option String
  time : Option String
  strategy : Option String
  deriving DecidableEq

/-- One entry of `trade_log` (quantity and price are stringified in the
source; we keep them as the rationals they render). -/
structure TradeEntry where
  time : String
  symbol : String
  side : String
  quantity : ℚ
  price : ℚ
  deriving DecidableEq

/-- The module-level mutable state of `app/main.py` that the claims
touch: watchlist, run flags, account snapshot, performance counters,
last trade record, positions, trade log and initial balance. -/
structure BotState where
  watchlist : List String
  bot_running : Bool
  bot_paused : Bool
  account_snapshot : AccountSnapshot
  performance_today : Performance
  last_trade : LastTrade
  positions : List (String × ℚ)
  trade_log : List TradeEntry
  initial_balance : ℚ
  deriving DecidableEq

/-- The `SYMBOL_TO_ID` table mapping symbols to CoinGecko ids. -/
def SYMBOL_TO_ID : List (String × String) :=
  [("BTC/USD", "bitcoin"), ("ETH/USD", "ethereum"), ("SOL/USD", "solana"),
   ("DOT/USD", "polkadot"), ("DOGE/USD", "dogecoin"), ("ADA/USD", "cardano")]

/-- `fetch_live_prices(symbols)`: resolve each symbol through
`SYMBOL_TO_ID`, look its id up in the API response `api`, and collect the
found prices; unmapped or unpriced symbols are omitted. -/
def fetch_live_prices (api : List (String × ℚ)) (symbols : List String) :
    List (String × ℚ) :=
  let ids := symbols.filterMap (fun sym => dget SYMBOL_TO_ID sym)
  if ids = [] then []
  else
    symbols.foldl (fun prices sym =>
      match dget SYMBOL_TO_ID sym with
      | some cid =>
        match dget api cid with
        | some p => dset prices sym p
        | none => prices
      | none => prices) []

/-- The positions-value sum computed inside `update_account_snapshot`:
fetch prices for the held symbols (skipping the fetch when there are no
positions) and sum `qty * price` over the symbols the lookup priced. -/
def positionsValue (api : List (String × ℚ)) (pos : List (String × ℚ)) : ℚ :=
  let current_prices := if pos = [] then [] else fetch_live_prices api (pos.map (·.1))
  pos.foldl (fun acc p =>
    match dget current_prices p.1 with
    | some price => acc + p.2 * price
    | none => acc) 0

/-- `update_account_snapshot()`: recompute `positions_value`, reset
`unrealized_pnl` to the placeholder 0, and set
`equity = cash + positions_value`. -/
def update_account_snapshot (api : List (String × ℚ)) (st : BotState) : BotState :=
  { st with account_snapshot :=
    { equity := st.account_snapshot.cash + positionsValue api st.positions
      cash := st.account_snapshot.cash
      positions_value := positionsValue api st.positions
      unrealized_pnl := 0 } }

/-- Result of the `/api/trade` endpoint: `{"status": "ok"}` or an
`{"error": msg}` payload. -/
inductive TradeResult where
  | ok
  | err (msg : String)
  deriving DecidableEq

/-- `manual_trade(symbol, side, quantity)`.  `api1` is the quote-source
response used for the trade-price lookup, `api2` the (separate) response
used by the final `update_account_snapshot` call, `now` the UTC
timestamp string. -/
def manual_trade (api1 api2 : List (String × ℚ)) (now symbol side : String)
    (quantity : ℚ) (st : BotState) : TradeResult × BotState :=
  let sym := pyUpper symbol
  let side_u := pyUpper side
  if ¬(side_u = "BUY" ∨ side_u = "SELL") then
    (.err "side must be BUY or SELL", st)
  else
    match dget (fetch_live_prices api1 [sym]) sym with
    | none => (.err "Unknown price for symbol", st)
    | some price =>
      if price ≤ 0 then (.err "Unknown price for symbol", st)
      else if quantity ≤ 0 then (.err "quantity must be positive", st)
      else if side_u = "BUY" then
        if st.account_snapshot.cash < quantity * price then
          (.err "insufficient cash", st)
        else
          (.ok, update_account_snapshot api2
            { st with
              account_snapshot :=
                { st.account_snapshot with
                  cash := st.account_snapshot.cash - quantity * price }
              positions := dset st.positions sym
                ((dget st.positions sym).getD 0 + quantity)
              performance_today :=
                { st.performance_today with
                  trades_count := st.performance_today.trades_count + 1 }
              trade_log := st.trade_log ++ [⟨now, sym, "BUY", quantity, price⟩] })
      else
        if (dget st.positions sym).getD 0 < quantity then
          (.err "insufficient position quantity", st)
        else
          (.ok, update_account_snapshot api2
            { st with
              positions := dset st.positions sym
                ((dget st.positions sym).getD 0 - quantity)
              account_snapshot :=
                { st.account_snapshot with
                  cash := st.account_snapshot.cash + quantity * price }
              performance_today :=
                { st.performance_today with
                  trades_count := st.performance_today.trades_count + 1 }
              trade_log := st.trade_log ++ [⟨now, sym, "SELL", quantity, price⟩] })

/-- `reset_account(balance)`: clear positions, trade log and counters,
set cash and equity to the requested (or the stored initial) balance.
Returns the fresh snapshot like the endpoint does. -/
def reset_account (balance : Option ℚ) (st : BotState) : AccountSnapshot × BotState :=
  let bal_val := balance.getD st.initial_balance
  let snap : AccountSnapshot :=
    { equity := bal_val, cash := bal_val, positions_value := 0, unrealized_pnl := 0 }
  (snap,
   { st with
     positions := []
     trade_log := []
     performance_today := { realized_pnl := 0, unrealized_pnl := 0, trades_count := 0 }
     account_snapshot := snap
     initial_balance := balance.getD st.initial_balance })

/-- `add_symbol(symbol)`: upper-case, append when not already present. -/
def add_symbol (symbol : String) (st : BotState) : BotState :=
  let sym := pyUpper symbol
  if sym ∈ st.watchlist then st
  else { st with watchlist := st.watchlist ++ [sym] }

/-- `remove_symbol(symbol)`: upper-case, remove first occurrence, silent
no-op when absent. -/
def remove_symbol (symbol : String) (st : BotState) : BotState :=
  { st with watchlist := listRemove st.watchlist (pyUpper symbol) }

/-- `get_account_snapshot()`. -/
def get_account_snapshot (st : BotState) : AccountSnapshot :=
  st.account_snapshot

/-- `get_last_trade()`. -/
def get_last_trade (st : BotState) : LastTrade :=
  st.last_trade

/-- `get_trade_log()` (the `/api/trades` endpoint). -/
def get_trade_log (st : BotState) : List TradeEntry :=
  st.trade_log

/-- `start_bot()`: only acts when the bot is not running; sets
running and clears paused (and spawns the feed task, which carries no
ledger-visible state beyond the two flags). -/
def start_bot (st : BotState) : BotState :=
  if st.bot_running = false then { st with bot_running := true, bot_paused := false }
  else st

/-- `pause_bot()`: sets the paused flag when running, otherwise no-op. -/
def pause_bot (st : BotState) : BotState :=
  if st.bot_running = true then { st with bot_paused := true } else st

/-- `kill_bot()`: clears both flags and cancels the feed task. -/
def kill_bot (st : BotState) : BotState :=
  { st with bot_running := false, bot_paused := false }

/-- The module-level initial state of `app/main.py`. -/
def initState : BotState :=
  { watchlist := ["BTC/USD", "ETH/USD", "SOL/USD", "DOT/USD", "DOGE/USD"]
    bot_running := false
    bot_paused := false
    account_snapshot :=
      { equity := 10000, cash := 10000, positions_value := 0, unrealized_pnl := 0 }
    performance_today := { realized_pnl := 0, unrealized_pnl := 0, trades_count := 0 }
    last_trade :=
      { symbol := none, side := none, quantity := none, price := none,
        time := none, strategy := none }
    positions := []
    trade_log := []
    initial_balance := 10000 }

/-- The contribution of one held position to `positions_value`: quantity
times price when the lookup priced the symbol, 0 otherwise. -/
def pricedContribution (prices : List (String × ℚ)) (p : String × ℚ) : ℚ :=
  match dget prices p.1 with
  | some price => p.2 * price
  | none => 0

/-- One ledger-mutating request: a manual trade, an account reset, or a
bare snapshot recomputation. -/
inductive Op where
  | trade (api1 api2 : List (String × ℚ)) (now symbol side : String) (quantity : ℚ)
  | reset (balance : Option ℚ)
  | recompute (api : List (String × ℚ))

/-- Apply one request to the state, discarding the response payload. -/
def stepOp (op : Op) (st : BotState) : BotState :=
  match op with
  | .trade api1 api2 now symbol side quantity =>
    (manual_trade api1 api2 now symbol side quantity st).2
  | .reset balance => (reset_account balance st).2
  | .recompute api => update_account_snapshot api st

/-- Run a sequence of requests in arrival order. -/
def runOps (ops : List Op) (st : BotState) : BotState :=
  ops.foldl (fun s op => stepOp op s) st

/-- The snapshot-consistency invariant of the spec:
`equity == cash + positions_value` on the stored snapshot. -/
def equityInv (st : BotState) : Prop :=
  st.account_snapshot.equity
    = st.account_snapshot.cash + st.account_snapshot.positions_value

/-- One manual-trade request with the quote-source responses and the
timestamp it observes. -/
structure TradeReq where
  api1 : List (String × ℚ)
  api2 : List (String × ℚ)
  now : String
  symbol : String
  side : String
  quantity : ℚ

/-- Run a sequence of manual-trade requests. -/
def runTrades (reqs : List TradeReq) (st : BotState) : BotState :=
  reqs.foldl (fun s r => (manual_trade r.api1 r.api2 r.now r.symbol r.side r.quantity s).2) st

/-- The initial `last_trade` record: every field `None`. -/
def initLastTrade : LastTrade :=
  { symbol := none, side := none, quantity := none, price := none,
    time := none, strategy := none }

/-- The three feed control-surface operations. -/
inductive FeedOp where
  | start
  | pause
  | kill
  deriving DecidableEq

/-- Apply one control operation to the run-state. -/
def feedStep (op : FeedOp) (st : BotState) : BotState :=
  match op with
  | .start => start_bot st
  | .pause => pause_bot st
  | .kill => kill_bot st

/-- Run a sequence of control operations. -/
def runFeed (ops : List FeedOp) (st : BotState) : BotState :=
  ops.foldl (fun s op => feedStep op s) st

/-- The Paused state reached by pausing a freshly started feed. -/
def pausedState : BotState :=
  pause_bot (start_bot initState)

/-- Running means: the loop flag is set and the paused flag is clear, so
`price_feed` broadcasts ticks. -/
def feedRunning (st : BotState) : Prop :=
  st.bot_running = true ∧ st.bot_paused = false

/-- `ConnectionManager.disconnect(ws)`: `list.remove` guarded by
`except ValueError: pass`.  Sessions are modelled as numeric handles. -/
def disconnect (conns : List Nat) (ws : Nat) : List Nat :=
  listRemove conns ws

/-- The loop body of `ConnectionManager.broadcast`: walk the snapshot
copy `list(self.active_connections)` in order; a successful `send_json`
(`sendOk ws = true`) delivers, a failing one disconnects `ws` from the
live list and the loop continues.  Returns the live list together with
the ghost lists of attempted and delivered sessions, in loop order. -/
def broadcastGo (sendOk : Nat → Bool) : List Nat → List Nat → List Nat × List Nat × List Nat
  | [], active => (active, [], [])
  | ws :: rest, active =>
    if sendOk ws then
      let r := broadcastGo sendOk rest active
      (r.1, ws :: r.2.1, ws :: r.2.2)
    else
      let r := broadcastGo sendOk rest (disconnect active ws)
      (r.1, ws :: r.2.1, r.2.2)

/-- `ConnectionManager.broadcast(message)`: iterate over a copy of the
registered-session list, starting from the full list itself. -/
def broadcast (sendOk : Nat → Bool) (conns : List Nat) :
    List Nat × List Nat × List Nat :=
  broadcastGo sendOk conns conns

/-- A demonstration state holding 2 units of BTC/USD, used by concrete
witness instances. -/
def sellDemoState : BotState :=
  { initState with positions := [("BTC/USD", 2)] }

/-- The initial state with an emptied watchlist, used by concrete
witness instances. -/
def emptyWatchState : BotState :=
  { initState with watchlist := [] }

/-! ### Basic lemmas about the embedded operations -/

theorem dget_dset {α : Type} (d : List (String × α)) (k : String) (v : α) (k' : String) :
    dget (dset d k v) k' = if k = k' then some v else dget d k' := by
  induction d with
  | nil => by_cases h : k = k' <;> simp [dset, dget, h]
  | cons a t ih =>
    obtain ⟨ak, av⟩ := a
    by_cases hak : ak = k <;> by_cases h : k = k' <;> simp_all [dset, dget]

theorem update_snapshot_cash (api : List (String × ℚ)) (st : BotState) :
    (update_account_snapshot api st).account_snapshot.cash = st.account_snapshot.cash := rfl

theorem update_snapshot_positions (api : List (String × ℚ)) (st : BotState) :
    (update_account_snapshot api st).positions = st.positions := rfl

theorem update_snapshot_last_trade (api : List (String × ℚ)) (st : BotState) :
    (update_account_snapshot api st).last_trade = st.last_trade := rfl

theorem equityInv_update (api : List (String × ℚ)) (st : BotState) :
    equityInv (update_account_snapshot api st) := rfl

theorem mt_last_trade (api1 api2 : List (String × ℚ)) (now symbol side : String)
    (quantity : ℚ) (st : BotState) :
    (manual_trade api1 api2 now symbol side quantity st).2.last_trade = st.last_trade := by
  rcases hr : manual_trade api1 api2 now symbol side quantity st with ⟨res, st2⟩
  show st2.last_trade = st.last_trade
  simp only [manual_trade] at hr
  split at hr
  · injection hr with h1 h2; rw [← h2]
  · split at hr
    · injection hr with h1 h2; rw [← h2]
    · split at hr
      · injection hr with h1 h2; rw [← h2]
      · split at hr
        · injection hr with h1 h2; rw [← h2]
        · split at hr
          · split at hr
            · injection hr with h1 h2; rw [← h2]
            · injection hr with h1 h2; rw [← h2, update_snapshot_last_trade]
          · split at hr
            · injection hr with h1 h2; rw [← h2]
            · injection hr with h1 h2; rw [← h2, update_snapshot_last_trade]

theorem mt_equityInv (api1 api2 : List (String × ℚ)) (now symbol side : String)
    (quantity : ℚ) (st : BotState) (h : equityInv st) :
    equityInv (manual_trade api1 api2 now symbol side quantity st).2 := by
  rcases hr : manual_trade api1 api2 now symbol side quantity st with ⟨res, st2⟩
  show equityInv st2
  simp only [manual_trade] at hr
  split at hr
  · injection hr with h1 h2; rw [← h2]; exact h
  · split at hr
    · injection hr with h1 h2; rw [← h2]; exact h
    · split at hr
      · injection hr with h1 h2; rw [← h2]; exact h
      · split at hr
        · injection hr with h1 h2; rw [← h2]; exact h
        · split at hr
          · split at hr
            · injection hr with h1 h2; rw [← h2]; exact h
            · injection hr with h1 h2; rw [← h2]; exact equityInv_update _ _
          · split at hr
            · injection hr with h1 h2; rw [← h2]; exact h
            · injection hr with h1 h2; rw [← h2]; exact equityInv_update _ _

theorem mt_ok_buy (api1 api2 : List (String × ℚ)) (now symbol side : String)
    (quantity : ℚ) (st : BotState)
    (h : (manual_trade api1 api2 now symbol side quantity st).1 = .ok)
    (hb : pyUpper side = "BUY") :
    ∃ price, dget (fetch_live_prices api1 [pyUpper symbol]) (pyUpper symbol) = some price ∧
      0 < price ∧ 0 < quantity ∧
      quantity * price ≤ st.account_snapshot.cash ∧
      (manual_trade api1 api2 now symbol side quantity st).2.account_snapshot.cash
        = st.account_snapshot.cash - quantity * price := by
  rcases hr : manual_trade api1 api2 now symbol side quantity st with ⟨res, st2⟩
  rw [hr] at h
  replace h : res = .ok := h
  subst h
  simp only [manual_trade] at hr
  split at hr
  · injection hr with h1 h2; exact TradeResult.noConfusion h1
  · split at hr
    · injection hr with h1 h2; exact TradeResult.noConfusion h1
    · rename_i price heq
      split at hr
      · injection hr with h1 h2; exact TradeResult.noConfusion h1
      · rename_i hple
        split at hr
        · injection hr with h1 h2; exact TradeResult.noConfusion h1
        · rename_i hqle
          split at hr
          · injection hr with h1 h2; exact TradeResult.noConfusion h1
          · rename_i hcash
            injection hr with h1 h2
            refine ⟨price, heq, lt_of_not_le hple, lt_of_not_le hqle,
              le_of_not_lt hcash, ?_⟩
            rw [← h2]
            rfl

theorem mt_ok_sell (api1 api2 : List (String × ℚ)) (now symbol side : String)
    (quantity : ℚ) (st : BotState)
    (h : (manual_trade api1 api2 now symbol side quantity st).1 = .ok)
    (hs : pyUpper side = "SELL") :
    ∃ price, dget (fetch_live_prices api1 [pyUpper symbol]) (pyUpper symbol) = some price ∧
      0 < price ∧ 0 < quantity ∧
      quantity ≤ (dget st.positions (pyUpper symbol)).getD 0 ∧
      (manual_trade api1 api2 now symbol side quantity st).2.positions
        = dset st.positions (pyUpper symbol)
            ((dget st.positions (pyUpper symbol)).getD 0 - quantity) := by
  rcases hr : manual_trade api1 api2 now symbol side quantity st with ⟨res, st2⟩
  rw [hr] at h
  replace h : res = .ok := h
  subst h
  simp only [manual_trade] at hr
  split at hr
  · injection hr with h1 h2; exact TradeResult.noConfusion h1
  · split at hr
    · injection hr with h1 h2; exact TradeResult.noConfusion h1
    · rename_i price heq
      split at hr
      · injection hr with h1 h2; exact TradeResult.noConfusion h1
      · rename_i hple
        split at hr
        · injection hr with h1 h2; exact TradeResult.noConfusion h1
        · rename_i hqle
          split at hr
          · rename_i hby
            exact absurd (hs.symm.trans hby) (by decide)
          · split at hr
            · injection hr with h1 h2; exact TradeResult.noConfusion h1
            · rename_i hpos
              injection hr with h1 h2
              refine ⟨price, heq, lt_of_not_le hple, lt_of_not_le hqle,
                le_of_not_lt hpos, ?_⟩
              rw [← h2]
              rfl

theorem mt_buy_insufficient (api1 api2 : List (String × ℚ)) (now symbol side : String)
    (quantity p : ℚ) (st : BotState)
    (hb : pyUpper side = "BUY")
    (hp : dget (fetch_live_prices api1 [pyUpper symbol]) (pyUpper symbol) = some p)
    (hppos : 0 < p) (hq : 0 < quantity)
    (hc : st.account_snapshot.cash < quantity * p) :
    (manual_trade api1 api2 now symbol side quantity st).1 = .err "insufficient cash" := by
  rcases hr : manual_trade api1 api2 now symbol side quantity st with ⟨res, st2⟩
  show res = .err "insufficient cash"
  simp only [manual_trade] at hr
  split at hr
  · rename_i hcond
    exact absurd (Or.inl hb) hcond
  · split at hr
    · rename_i hnone
      rw [hp] at hnone
      exact Option.noConfusion hnone
    · rename_i price heq
      rw [hp] at heq
      injection heq with heq
      subst heq
      split at hr
      · rename_i hple
        exact absurd hple (not_le.mpr hppos)
      · split at hr
        · rename_i hqle
          exact absurd hqle (not_le.mpr hq)
        · injection hr with h1 h2
          exact h1.symm

theorem mt_sell_insufficient (api1 api2 : List (String × ℚ)) (now symbol side : String)
    (quantity p : ℚ) (st : BotState)
    (hs : pyUpper side = "SELL")
    (hp : dget (fetch_live_prices api1 [pyUpper symbol]) (pyUpper symbol) = some p)
    (hppos : 0 < p) (hq : 0 < quantity)
    (hpos : (dget st.positions (pyUpper symbol)).getD 0 < quantity) :
    (manual_trade api1 api2 now symbol side quantity st).1
      = .err "insufficient position quantity" := by
  rcases hr : manual_trade api1 api2 now symbol side quantity st with ⟨res, st2⟩
  show res = .err "insufficient position quantity"
  simp only [manual_trade] at hr
  split at hr
  · rename_i hcond
    exact absurd (Or.inr hs) hcond
  · split at hr
    · rename_i hnone
      rw [hp] at hnone
      exact Option.noConfusion hnone
    · rename_i price heq
      rw [hp] at heq
      injection heq with heq
      subst heq
      split at hr
      · rename_i hple
        exact absurd hple (not_le.mpr hppos)
      · split at hr
        · rename_i hqle
          exact absurd hqle (not_le.mpr hq)
        · split at hr
          · rename_i hby
            exact absurd (hs.symm.trans hby) (by decide)
          · injection hr with h1 h2
            exact h1.symm

theorem mt_qty_err (api1 api2 : List (String × ℚ)) (now symbol side : String)
    (quantity p : ℚ) (st : BotState)
    (hside : pyUpper side = "BUY" ∨ pyUpper side = "SELL")
    (hp : dget (fetch_live_prices api1 [pyUpper symbol]) (pyUpper symbol) = some p)
    (hppos : 0 < p) (hq : quantity ≤ 0) :
    (manual_trade api1 api2 now symbol side quantity st).1
      = .err "quantity must be positive" := by
  rcases hr : manual_trade api1 api2 now symbol side quantity st with ⟨res, st2⟩
  show res = .err "quantity must be positive"
  simp only [manual_trade] at hr
  split at hr
  · rename_i hcond
    exact absurd hside hcond
  · split at hr
    · rename_i hnone
      rw [hp] at hnone
      exact Option.noConfusion hnone
    · rename_i price heq
      rw [hp] at heq
      injection heq with heq
      subst heq
      split at hr
      · rename_i hple
        exact absurd hple (not_le.mpr hppos)
      · injection hr with h1 h2
        exact h1.symm

theorem mt_price_err (api1 api2 : List (String × ℚ)) (now symbol side : String)
    (quantity : ℚ) (st : BotState)
    (hside : pyUpper side = "BUY" ∨ pyUpper side = "SELL")
    (hnp : ∀ p, dget (fetch_live_prices api1 [pyUpper symbol]) (pyUpper symbol) = some p
      → p ≤ 0) :
    (manual_trade api1 api2 now symbol side quantity st).1
      = .err "Unknown price for symbol" := by
  rcases hr : manual_trade api1 api2 now symbol side quantity st with ⟨res, st2⟩
  show res = .err "Unknown price for symbol"
  simp only [manual_trade] at hr
  split at hr
  · rename_i hcond
    exact absurd hside hcond
  · split at hr
    · injection hr with h1 h2
      exact h1.symm
    · rename_i price heq
      split at hr
      · injection hr with h1 h2
        exact h1.symm
      · rename_i hple
        exact absurd (hnp price heq) hple

theorem mt_positions_keys (api1 api2 : List (String × ℚ)) (now symbol side : String)
    (quantity : ℚ) (st : BotState) (k : String)
    (h : (dget st.positions k).isSome = true) :
    (dget (manual_trade api1 api2 now symbol side quantity st).2.positions k).isSome
      = true := by
  rcases hr : manual_trade api1 api2 now symbol side quantity st with ⟨res, st2⟩
  show (dget st2.positions k).isSome = true
  simp only [manual_trade] at hr
  split at hr
  · injection hr with h1 h2; rw [← h2]; exact h
  · split at hr
    · injection hr with h1 h2; rw [← h2]; exact h
    · split at hr
      · injection hr with h1 h2; rw [← h2]; exact h
      · split at hr
        · injection hr with h1 h2; rw [← h2]; exact h
        · split at hr
          · split at hr
            · injection hr with h1 h2; rw [← h2]; exact h
            · injection hr with h1 h2
              rw [← h2, update_snapshot_positions]
              show (dget (dset st.positions (pyUpper symbol) _) k).isSome = true
              rw [dget_dset]
              by_cases hk : pyUpper symbol = k <;> simp [hk, h]
          · split at hr
            · injection hr with h1 h2; rw [← h2]; exact h
            · injection hr with h1 h2
              rw [← h2, update_snapshot_positions]
              show (dget (dset st.positions (pyUpper symbol) _) k).isSome = true
              rw [dget_dset]
              by_cases hk : pyUpper symbol = k <;> simp [hk, h]

theorem foldl_add_pricedContribution (prices : List (String × ℚ)) :
    ∀ (l : List (String × ℚ)) (a : ℚ),
      l.foldl (fun acc q =>
        match dget prices q.1 with
        | some price => acc + q.2 * price
        | none => acc) a
        = a + (l.map (pricedContribution prices)).sum := by
  intro l
  induction l with
  | nil => intro a; simp
  | cons q t ih =>
    intro a
    rcases hq : dget prices q.1 with _ | price
    · simp [List.foldl_cons, ih, pricedContribution, hq]
    · simp [List.foldl_cons, ih, pricedContribution, hq]
      ring

theorem positionsValue_eq_sum (api : List (String × ℚ)) (pos : List (String × ℚ)) :
    positionsValue api pos
      = (pos.map (pricedContribution
          (if pos = [] then [] else fetch_live_prices api (pos.map (·.1))))).sum := by
  rw [positionsValue, foldl_add_pricedContribution, zero_add]

theorem equityInv_reset (balance : Option ℚ) (st : BotState) :
    equityInv (reset_account balance st).2 := by
  simp [equityInv, reset_account]

theorem equityInv_initState : equityInv initState := by
  simp [equityInv, initState]

theorem equityInv_stepOp (op : Op) (st : BotState) (h : equityInv st) :
    equityInv (stepOp op st) := by
  cases op with
  | trade api1 api2 now symbol side quantity =>
    exact mt_equityInv api1 api2 now symbol side quantity st h
  | reset balance => exact equityInv_reset balance st
  | recompute api => exact equityInv_update api st

theorem equityInv_runOps (ops : List Op) (st : BotState) (h : equityInv st) :
    equityInv (runOps ops st) := by
  induction ops generalizing st with
  | nil => exact h
  | cons op t ih => exact ih (stepOp op st) (equityInv_stepOp op st h)

theorem runTrades_last_trade (reqs : List TradeReq) (st : BotState) :
    (runTrades reqs st).last_trade = st.last_trade := by
  induction reqs generalizing st with
  | nil => rfl
  | cons r t ih =>
    calc (runTrades (r :: t) st).last_trade
        = (runTrades t (manual_trade r.api1 r.api2 r.now r.symbol r.side r.quantity st).2).last_trade := rfl
      _ = (manual_trade r.api1 r.api2 r.now r.symbol r.side r.quantity st).2.last_trade := ih _
      _ = st.last_trade := mt_last_trade _ _ _ _ _ _ _

theorem start_bot_pausedState : start_bot pausedState = pausedState := rfl

theorem pause_bot_pausedState : pause_bot pausedState = pausedState := rfl

theorem feedStep_pausedState (op : FeedOp) (h : op ≠ .kill) :
    feedStep op pausedState = pausedState := by
  cases op with
  | start => exact start_bot_pausedState
  | pause => exact pause_bot_pausedState
  | kill => exact absurd rfl h

theorem runFeed_no_kill (ops : List FeedOp) (h : FeedOp.kill ∉ ops) :
    runFeed ops pausedState = pausedState := by
  induction ops with
  | nil => rfl
  | cons op t ih =>
    have hop : op ≠ .kill := fun he => h (he ▸ List.mem_cons_self op t)
    have ht : FeedOp.kill ∉ t := fun hm => h (List.mem_cons_of_mem op hm)
    calc runFeed (op :: t) pausedState
        = runFeed t (feedStep op pausedState) := rfl
      _ = runFeed t pausedState := by rw [feedStep_pausedState op hop]
      _ = pausedState := ih ht

theorem broadcastGo_attempted (sendOk : Nat → Bool) :
    ∀ (l active : List Nat), (broadcastGo sendOk l active).2.1 = l := by
  intro l
  induction l with
  | nil => intro active; rfl
  | cons ws t ih =>
    intro active
    by_cases hw : sendOk ws = true <;> simp [broadcastGo, hw, ih]

theorem broadcastGo_delivered (sendOk : Nat → Bool) :
    ∀ (l active : List Nat), (broadcastGo sendOk l active).2.2 = l.filter sendOk := by
  intro l
  induction l with
  | nil => intro active; rfl
  | cons ws t ih =>
    intro active
    by_cases hw : sendOk ws = true <;> simp [broadcastGo, hw, ih, List.filter_cons]

theorem broadcastGo_active_cons (sendOk : Nat → Bool) (c : Nat) (hc : sendOk c = true) :
    ∀ (l a : List Nat),
      (broadcastGo sendOk l (c :: a)).1 = c :: (broadcastGo sendOk l a).1 := by
  intro l
  induction l with
  | nil => intro a; rfl
  | cons ws t ih =>
    intro a
    by_cases hw : sendOk ws = true
    · simp [broadcastGo, hw, ih]
    · have hwc : ¬(c = ws) := fun h => by rw [← h] at hw; exact hw hc
      simp [broadcastGo, hw, disconnect, listRemove, hwc, ih]

theorem broadcastGo_active_self (sendOk : Nat → Bool) :
    ∀ l : List Nat, (broadcastGo sendOk l l).1 = l.filter sendOk := by
  intro l
  induction l with
  | nil => rfl
  | cons ws t ih =>
    by_cases hw : sendOk ws = true
    · simp [broadcastGo, hw, List.filter_cons, broadcastGo_active_cons sendOk ws hw t t, ih]
    · simp [broadcastGo, hw, disconnect, listRemove, List.filter_cons, ih]

/-! ### The claims -/

/-- Claim C1: for every sequence of manual trades, account resets and
snapshot recomputations starting from the initial state, the stored
snapshot satisfies equity = cash + positions_value; moreover every
recompute stores as positions_value the sum of quantity times current
price over the held symbols the price lookup priced (symbols with no
available price contribute 0) and re-establishes the equity equation. -/
theorem equity_invariant_all_ops :
    (∀ ops : List Op, equityInv (runOps ops initState)) ∧
    (∀ (api : List (String × ℚ)) (st : BotState),
      equityInv (update_account_snapshot api st) ∧
      (update_account_snapshot api st).account_snapshot.positions_value
        = (st.positions.map (pricedContribution
            (if st.positions = [] then []
             else fetch_live_prices api (st.positions.map (·.1))))).sum) :=
  ⟨fun ops => equityInv_runOps ops initState equityInv_initState,
   fun api st => ⟨equityInv_update api st, positionsValue_eq_sum api st.positions⟩⟩

/-- Claim C2: a manual-trade request that fails any validation step
returns a structured error result and leaves the whole state — account
snapshot, positions map, trade log and performance counters — exactly as
it was (all-or-nothing). -/
theorem failed_trade_is_pure (api1 api2 : List (String × ℚ)) (now symbol side : String)
    (quantity : ℚ) (st : BotState) (msg : String)
    (h : (manual_trade api1 api2 now symbol side quantity st).1 = .err msg) :
    (manual_trade api1 api2 now symbol side quantity st).2 = st := by
  rcases hr : manual_trade api1 api2 now symbol side quantity st with ⟨res, st2⟩
  rw [hr] at h
  replace h : res = .err msg := h
  subst h
  show st2 = st
  simp only [manual_trade] at hr
  split at hr
  · injection hr with h1 h2; exact h2.symm
  · split at hr
    · injection hr with h1 h2; exact h2.symm
    · split at hr
      · injection hr with h1 h2; exact h2.symm
      · split at hr
        · injection hr with h1 h2; exact h2.symm
        · split at hr
          · split at hr
            · injection hr with h1 h2; exact h2.symm
            · injection hr with h1 h2; exact TradeResult.noConfusion h1
          · split at hr
            · injection hr with h1 h2; exact h2.symm
            · injection hr with h1 h2; exact TradeResult.noConfusion h1

/-- Witness for C2: a BUY with no available price fails with the price
error and leaves the initial state untouched. -/
theorem failed_trade_is_pure_witness :
    (manual_trade [] [] "t0" "BTC/USD" "BUY" 1 initState).1
        = TradeResult.err "Unknown price for symbol" ∧
    (manual_trade [] [] "t0" "BTC/USD" "BUY" 1 initState).2 = initState :=
  ⟨by norm_num +decide [manual_trade, fetch_live_prices, dget, SYMBOL_TO_ID, pyUpper],
   failed_trade_is_pure [] [] "t0" "BTC/USD" "BUY" 1 initState "Unknown price for symbol"
     (by norm_num +decide [manual_trade, fetch_live_prices, dget, SYMBOL_TO_ID, pyUpper])⟩

/-- Claim C6: resetting to balance B and immediately reading back yields
the snapshot (cash B, equity B, positions_value 0, unrealized_pnl 0), an
empty positions map, an empty trade log and zeroed counters. -/
theorem reset_roundtrip (B : ℚ) (st : BotState) :
    (reset_account (some B) st).1
        = { equity := B, cash := B, positions_value := 0, unrealized_pnl := 0 } ∧
    get_account_snapshot (reset_account (some B) st).2
        = { equity := B, cash := B, positions_value := 0, unrealized_pnl := 0 } ∧
    (reset_account (some B) st).2.positions = [] ∧
    get_trade_log (reset_account (some B) st).2 = [] ∧
    (reset_account (some B) st).2.performance_today
        = { realized_pnl := 0, unrealized_pnl := 0, trades_count := 0 } :=
  ⟨rfl, rfl, rfl, rfl, rfl⟩

/-- Claim C7: broadcast attempts delivery to every registered session in
registration order; the failing sessions (and exactly those) are
unregistered, and every non-failing session receives the message — one
failing session never aborts or truncates the broadcast. -/
theorem broadcast_reaches_all_sessions (sendOk : Nat → Bool) (conns : List Nat) :
    broadcast sendOk conns = (conns.filter sendOk, conns, conns.filter sendOk) := by
  have h1 := broadcastGo_active_self sendOk conns
  have h2 := broadcastGo_attempted sendOk conns conns
  have h3 := broadcastGo_delivered sendOk conns conns
  unfold broadcast
  exact Prod.ext h1 (Prod.ext h2 h3)

/-- Claim C9: no manual trade ever touches the last-trade record, so
after any sequence of trade requests the get-last-trade read still
returns the initial all-None record. -/
theorem last_trade_never_updated :
    (∀ (api1 api2 : List (String × ℚ)) (now symbol side : String) (quantity : ℚ)
      (st : BotState),
      (manual_trade api1 api2 now symbol side quantity st).2.last_trade
        = st.last_trade) ∧
    (∀ reqs : List TradeReq, get_last_trade (runTrades reqs initState) = initLastTrade) :=
  ⟨mt_last_trade, fun reqs => runTrades_last_trade reqs initState⟩


/-- Claim C3: an executed BUY leaves the cash balance non-negative, and a
BUY whose cost exceeds the cash balance is rejected with the
insufficient-funds error; an executed SELL leaves the traded symbol's
held quantity non-negative, and a SELL of more than the held quantity is
rejected with the insufficient-position error. -/
theorem buy_sell_never_negative :
    (∀ (api1 api2 : List (String × ℚ)) (now symbol side : String) (quantity : ℚ)
        (st : BotState),
      (manual_trade api1 api2 now symbol side quantity st).1 = .ok →
      pyUpper side = "BUY" →
      0 ≤ (manual_trade api1 api2 now symbol side quantity st).2.account_snapshot.cash) ∧
    (∀ (api1 api2 : List (String × ℚ)) (now symbol side : String) (quantity p : ℚ)
        (st : BotState),
      pyUpper side = "BUY" →
      dget (fetch_live_prices api1 [pyUpper symbol]) (pyUpper symbol) = some p →
      0 < p → 0 < quantity →
      st.account_snapshot.cash < quantity * p →
      (manual_trade api1 api2 now symbol side quantity st).1 = .err "insufficient cash") ∧
    (∀ (api1 api2 : List (String × ℚ)) (now symbol side : String) (quantity : ℚ)
        (st : BotState),
      (manual_trade api1 api2 now symbol side quantity st).1 = .ok →
      pyUpper side = "SELL" →
      ∃ v, dget (manual_trade api1 api2 now symbol side quantity st).2.positions
          (pyUpper symbol) = some v ∧ 0 ≤ v) ∧
    (∀ (api1 api2 : List (String × ℚ)) (now symbol side : String) (quantity p : ℚ)
        (st : BotState),
      pyUpper side = "SELL" →
      dget (fetch_live_prices api1 [pyUpper symbol]) (pyUpper symbol) = some p →
      0 < p → 0 < quantity →
      (dget st.positions (pyUpper symbol)).getD 0 < quantity →
      (manual_trade api1 api2 now symbol side quantity st).1
        = .err "insufficient position quantity") := by
  refine ⟨?_, mt_buy_insufficient, ?_, mt_sell_insufficient⟩
  · intro api1 api2 now symbol side quantity st hok hb
    obtain ⟨price, hp, hppos, hqpos, hle, hcash⟩ :=
      mt_ok_buy api1 api2 now symbol side quantity st hok hb
    rw [hcash]
    linarith
  · intro api1 api2 now symbol side quantity st hok hs
    obtain ⟨price, hp, hppos, hqpos, hle, hpos⟩ :=
      mt_ok_sell api1 api2 now symbol side quantity st hok hs
    refine ⟨(dget st.positions (pyUpper symbol)).getD 0 - quantity, ?_, by linarith⟩
    rw [hpos, dget_dset]
    simp

/-- Witness for C3: a concrete executed BUY, rejected BUY, executed SELL
and rejected SELL. -/
theorem buy_sell_never_negative_witness :
    ((manual_trade [("bitcoin", 20000)] [] "t0" "BTC/USD" "BUY" (1/10) initState).1
        = TradeResult.ok ∧
      0 ≤ (manual_trade [("bitcoin", 20000)] [] "t0" "BTC/USD" "BUY" (1/10)
        initState).2.account_snapshot.cash) ∧
    (manual_trade [("bitcoin", 20000)] [] "t1" "BTC/USD" "BUY" 1 initState).1
        = TradeResult.err "insufficient cash" ∧
    ((manual_trade [("bitcoin", 100)] [] "t2" "BTC/USD" "SELL" 2 sellDemoState).1
        = TradeResult.ok ∧
      ∃ v, dget (manual_trade [("bitcoin", 100)] [] "t2" "BTC/USD" "SELL" 2
          sellDemoState).2.positions (pyUpper "BTC/USD") = some v ∧ 0 ≤ v) ∧
    (manual_trade [("bitcoin", 100)] [] "t3" "BTC/USD" "SELL" 1 initState).1
        = TradeResult.err "insufficient position quantity" := by
  have hbuy : (manual_trade [("bitcoin", 20000)] [] "t0" "BTC/USD" "BUY" (1/10)
      initState).1 = TradeResult.ok := by
    norm_num +decide [manual_trade, fetch_live_prices, dget, SYMBOL_TO_ID, pyUpper, initState]
  have hsell : (manual_trade [("bitcoin", 100)] [] "t2" "BTC/USD" "SELL" 2
      sellDemoState).1 = TradeResult.ok := by
    norm_num +decide [manual_trade, fetch_live_prices, dget, SYMBOL_TO_ID, pyUpper,
      initState, sellDemoState]
  refine ⟨⟨hbuy, ?_⟩, ?_, ⟨hsell, ?_⟩, ?_⟩
  · exact buy_sell_never_negative.1 [("bitcoin", 20000)] [] "t0" "BTC/USD" "BUY" (1/10)
      initState hbuy (by decide)
  · exact buy_sell_never_negative.2.1 [("bitcoin", 20000)] [] "t1" "BTC/USD" "BUY" 1 20000
      initState (by decide)
      (by norm_num +decide [fetch_live_prices, dget, dset, SYMBOL_TO_ID, pyUpper])
      (by norm_num) (by norm_num) (by norm_num +decide [initState])
  · exact buy_sell_never_negative.2.2.1 [("bitcoin", 100)] [] "t2" "BTC/USD" "SELL" 2
      sellDemoState hsell (by decide)
  · exact buy_sell_never_negative.2.2.2 [("bitcoin", 100)] [] "t3" "BTC/USD" "SELL" 1 100
      initState (by decide)
      (by norm_num +decide [fetch_live_prices, dget, dset, SYMBOL_TO_ID, pyUpper])
      (by norm_num) (by norm_num)
      (by norm_num +decide [initState, dget, pyUpper])


/-- Claim C4 is refuted by the code: from the Paused state reached by
pausing a running feed, start and pause are exact no-ops (start only
acts when the running flag is clear, and it never clears the paused
flag) and kill leads to Stopped, so no control-surface operation brings
the feed back to Running; any operation sequence that reaches Running
again must contain kill, i.e. must pass through Stopped. -/
theorem paused_feed_requires_kill :
    ¬ feedRunning pausedState ∧
    feedStep .start pausedState = pausedState ∧
    feedStep .pause pausedState = pausedState ∧
    ¬ feedRunning (feedStep .kill pausedState) ∧
    ∀ ops : List FeedOp, feedRunning (runFeed ops pausedState) → FeedOp.kill ∈ ops := by
  have hnp : ¬ feedRunning pausedState := fun h => Bool.noConfusion h.2
  refine ⟨hnp, rfl, rfl, fun h => Bool.noConfusion h.1, ?_⟩
  intro ops h
  by_contra hk
  rw [runFeed_no_kill ops hk] at h
  exact hnp h

/-- Witness for C4: the sequence kill-then-start does reach Running from
Paused, and it contains kill. -/
theorem paused_feed_requires_kill_witness :
    feedRunning (runFeed [FeedOp.kill, FeedOp.start] pausedState) ∧
    FeedOp.kill ∈ [FeedOp.kill, FeedOp.start] :=
  ⟨⟨rfl, rfl⟩,
   paused_feed_requires_kill.2.2.2.2 [FeedOp.kill, FeedOp.start] ⟨rfl, rfl⟩⟩

/-- Claim C5 as stated is false: with a valid side and quantity 0 but no
available price, the trade fails with the price-unavailable error, not
the invalid-quantity error — in the code the quote lookup precedes
quantity validation. -/
theorem quantity_check_after_price_check_cex :
    (manual_trade [] [] "t0" "BTC/USD" "BUY" 0 initState).1
        = TradeResult.err "Unknown price for symbol" ∧
    (manual_trade [] [] "t0" "BTC/USD" "BUY" 0 initState).1
        ≠ TradeResult.err "quantity must be positive" := by
  have h : (manual_trade [] [] "t0" "BTC/USD" "BUY" 0 initState).1
      = TradeResult.err "Unknown price for symbol" := by
    norm_num +decide [manual_trade, fetch_live_prices, dget, SYMBOL_TO_ID, pyUpper]
  exact ⟨h, by rw [h]; decide⟩

/-- Claim C5 (amended): with a valid side and quantity ≤ 0, the request
fails with the invalid-quantity error whenever a positive price is
available for the symbol; when no positive price is available it fails
with the price-unavailable error instead, because the quote lookup
precedes quantity validation. -/
theorem quantity_check_after_price_check (api1 api2 : List (String × ℚ))
    (now symbol side : String) (quantity : ℚ) (st : BotState)
    (hside : pyUpper side = "BUY" ∨ pyUpper side = "SELL")
    (hq : quantity ≤ 0) :
    (∀ p, dget (fetch_live_prices api1 [pyUpper symbol]) (pyUpper symbol) = some p →
      0 < p →
      (manual_trade api1 api2 now symbol side quantity st).1
        = .err "quantity must be positive") ∧
    ((∀ p, dget (fetch_live_prices api1 [pyUpper symbol]) (pyUpper symbol) = some p →
        p ≤ 0) →
      (manual_trade api1 api2 now symbol side quantity st).1
        = .err "Unknown price for symbol") :=
  ⟨fun p hp hppos => mt_qty_err api1 api2 now symbol side quantity p st hside hp hppos hq,
   fun hnp => mt_price_err api1 api2 now symbol side quantity st hside hnp⟩

/-- Witness for the amended C5: with a price available, quantity 0 gives
the invalid-quantity error; with no price available it gives the
price-unavailable error. -/
theorem quantity_check_after_price_check_witness :
    (manual_trade [("bitcoin", 100)] [] "t0" "BTC/USD" "BUY" 0 initState).1
        = TradeResult.err "quantity must be positive" ∧
    (manual_trade [] [] "t1" "BTC/USD" "SELL" 0 initState).1
        = TradeResult.err "Unknown price for symbol" :=
  ⟨(quantity_check_after_price_check [("bitcoin", 100)] [] "t0" "BTC/USD" "BUY" 0
      initState (Or.inl (by decide)) le_rfl).1 100
      (by norm_num +decide [fetch_live_prices, dget, dset, SYMBOL_TO_ID, pyUpper])
      (by norm_num),
   (quantity_check_after_price_check [] [] "t1" "BTC/USD" "SELL" 0
      initState (Or.inr (by decide)) le_rfl).2
      (fun p hp => Option.noConfusion
        ((show dget (fetch_live_prices [] [pyUpper "BTC/USD"]) (pyUpper "BTC/USD") = none
            from by norm_num +decide [fetch_live_prices, dget, SYMBOL_TO_ID,
              pyUpper]).symm.trans hp))⟩

/-- Claim C8: adding a symbol whose upper-cased form is already on the
watchlist is a no-op, and adding a symbol to an empty watchlist and then
removing it returns the watchlist to empty. -/
theorem watchlist_add_remove (st : BotState) (s : String) :
    (pyUpper s ∈ st.watchlist → add_symbol s st = st) ∧
    (st.watchlist = [] → (remove_symbol s (add_symbol s st)).watchlist = []) := by
  constructor
  · intro h
    simp [add_symbol, h]
  · intro h
    simp [add_symbol, remove_symbol, h, listRemove]

/-- Witness for C8: adding lower-case "btc/usd" to the default watchlist
(which holds "BTC/USD") is a no-op, and an add/remove round-trip on an
empty watchlist ends empty. -/
theorem watchlist_add_remove_witness :
    (pyUpper "btc/usd" ∈ initState.watchlist ∧
      add_symbol "btc/usd" initState = initState) ∧
    (emptyWatchState.watchlist = [] ∧
      (remove_symbol "xyz/usd" (add_symbol "xyz/usd" emptyWatchState)).watchlist = []) :=
  ⟨⟨by decide, (watchlist_add_remove initState "btc/usd").1 (by decide)⟩,
   ⟨rfl, (watchlist_add_remove emptyWatchState "xyz/usd").2 rfl⟩⟩

/-- Claim C10: a successful SELL of the entire held quantity keeps the
symbol in the positions map with quantity exactly 0; manual trades never
remove a positions key, and only an account reset clears the map. -/
theorem full_sell_keeps_zero_position :
    (∀ (api1 api2 : List (String × ℚ)) (now symbol side : String) (quantity : ℚ)
        (st : BotState),
      pyUpper side = "SELL" →
      (dget st.positions (pyUpper symbol)).getD 0 = quantity →
      (manual_trade api1 api2 now symbol side quantity st).1 = .ok →
      dget (manual_trade api1 api2 now symbol side quantity st).2.positions
          (pyUpper symbol) = some 0) ∧
    (∀ (api1 api2 : List (String × ℚ)) (now symbol side : String) (quantity : ℚ)
        (st : BotState) (k : String),
      (dget st.positions k).isSome = true →
      (dget (manual_trade api1 api2 now symbol side quantity st).2.positions k).isSome
        = true) ∧
    (∀ (balance : Option ℚ) (st : BotState), (reset_account balance st).2.positions = []) := by
  refine ⟨?_, mt_positions_keys, fun balance st => rfl⟩
  intro api1 api2 now symbol side quantity st hs hfull hok
  obtain ⟨price, hp, hppos, hqpos, hle, hpos⟩ :=
    mt_ok_sell api1 api2 now symbol side quantity st hok hs
  rw [hpos, dget_dset, hfull]
  simp

/-- Witness for C10: selling both held units of BTC/USD leaves the key
present with quantity 0; the key survives a trade; a reset clears it. -/
theorem full_sell_keeps_zero_position_witness :
    ((dget sellDemoState.positions (pyUpper "BTC/USD")).getD 0 = 2 ∧
      (manual_trade [("bitcoin", 100)] [] "t0" "BTC/USD" "SELL" 2 sellDemoState).1
        = TradeResult.ok ∧
      dget (manual_trade [("bitcoin", 100)] [] "t0" "BTC/USD" "SELL" 2
          sellDemoState).2.positions (pyUpper "BTC/USD") = some 0) ∧
    ((dget sellDemoState.positions "BTC/USD").isSome = true ∧
      (dget (manual_trade [("bitcoin", 100)] [] "t0" "BTC/USD" "SELL" 2
          sellDemoState).2.positions "BTC/USD").isSome = true) ∧
    (reset_account (some 500) sellDemoState).2.positions = [] := by
  have hfull : (dget sellDemoState.positions (pyUpper "BTC/USD")).getD 0 = 2 := by
    norm_num +decide [sellDemoState, initState, dget, pyUpper]
  have hok : (manual_trade [("bitcoin", 100)] [] "t0" "BTC/USD" "SELL" 2
      sellDemoState).1 = TradeResult.ok := by
    norm_num +decide [manual_trade, fetch_live_prices, dget, dset, SYMBOL_TO_ID, pyUpper,
      initState, sellDemoState]
  refine ⟨⟨hfull, hok, ?_⟩, ⟨by decide, ?_⟩, ?_⟩
  · exact full_sell_keeps_zero_position.1 [("bitcoin", 100)] [] "t0" "BTC/USD" "SELL" 2
      sellDemoState (by decide) hfull hok
  · exact full_sell_keeps_zero_position.2.1 [("bitcoin", 100)] [] "t0" "BTC/USD" "SELL" 2
      sellDemoState "BTC/USD" (by decide)
  · exact full_sell_keeps_zero_position.2.2 (some 500) sellDemoState

end MrTeals
